import Mathlib

/-!
Verification of the temporal scheduling core of the subscriber-app backend.

The Lean definitions below are a shallow embedding of the Python source:

* `app/service/subscriber_appointments.py` — `docreq_appointment_bl`
  (7-day availability projection, window parsing, slot generation,
  booking-conflict filtering);
* `app/service/subscriber_sp.py` — `frequency_time_helper`
  (recurrence timestamps for a session window and a frequency policy)
  and `get_medication_schedule` (per-meal dose timing).

Times of day are modelled as natural numbers: minutes since midnight for
the appointment pipeline (which works in `%I:%M %p` resolution), seconds
since midnight for the nursing pipeline (which works in `%H:%M:%S`
resolution).  Calendar dates are day numbers (days since 1970-01-01).
Python string operations used by the source (`str.split`, `str.strip`,
`int`, `datetime.strptime`) are embedded as executable functions on
`List Char` / `String` below.
-/

/-- Whitespace characters accepted by the Python method `str.strip()` and by the
`\s` class used in `strptime` format gaps. -/
def isSpaceCh (c : Char) : Bool :=
  c = ' ' || c = '\t' || c = '\n' || c = '\r' || c = '\x0b' || c = '\x0c'

/-- Python `str.strip()` on a character list. -/
def pyStripL (l : List Char) : List Char :=
  ((l.dropWhile isSpaceCh).reverse.dropWhile isSpaceCh).reverse

/-- If `sep` is an initial segment of `l`, return the remainder. -/
def stripSepQ : List Char → List Char → Option (List Char)
  | [], l => some l
  | _ :: _, [] => none
  | s :: ss, c :: cs => if c = s then stripSepQ ss cs else none

/-- Worker for Python `str.split(sep)`; `fuel` bounds the recursion and is
instantiated with the length of the input, which suffices because a
non-empty separator consumes at least one character per split. -/
def pySplitAux (sep : List Char) : Nat → List Char → List Char → List (List Char)
  | _, acc, [] => [acc.reverse]
  | 0, acc, l => [acc.reverse ++ l]
  | fuel + 1, acc, c :: cs =>
    match stripSepQ sep (c :: cs) with
    | some rest => acc.reverse :: pySplitAux sep fuel [] rest
    | none => pySplitAux sep fuel (c :: acc) cs

/-- Python `str.split(sep)` (non-empty separator, left-to-right,
non-overlapping). -/
def pySplitL (sep l : List Char) : List (List Char) :=
  if sep = [] then [l] else pySplitAux sep l.length [] l

/-- Python `str.split(sep)` on `String`s. -/
def pySplit (sep s : String) : List String :=
  (pySplitL sep.toList s.toList).map List.asString

/-- Python `needle in haystack` (substring containment, non-empty needle):
the split along the needle has more than one part. -/
def pyInStr (needle hay : String) : Bool :=
  (pySplitL needle.toList hay.toList).length != 1

/-- Decimal digit value of a character, if it is a digit. -/
def digitVal (c : Char) : Option Nat :=
  if '0' ≤ c ∧ c ≤ '9' then some (c.toNat - 48) else none

/-- Python `int(str)`: optional surrounding whitespace, optional sign, a
non-empty run of decimal digits.  (Underscore separators accepted by
CPython are not used by this code base and are not modelled.) -/
def pyInt (s : String) : Option Int :=
  match pyStripL s.toList with
  | [] => none
  | '-' :: rest =>
    if rest = [] ∨ rest.any (fun c => (digitVal c).isNone) then none
    else some (-(rest.foldl (fun a c => 10 * a + ((digitVal c).getD 0)) 0 : Int))
  | '+' :: rest =>
    if rest = [] ∨ rest.any (fun c => (digitVal c).isNone) then none
    else some ((rest.foldl (fun a c => 10 * a + ((digitVal c).getD 0)) 0 : Int))
  | l =>
    if l.any (fun c => (digitVal c).isNone) then none
    else some ((l.foldl (fun a c => 10 * a + ((digitVal c).getD 0)) 0 : Int))

/-- One-or-more whitespace (the gap a literal space in a `strptime` format
string matches).  Returns the remainder, or `none` if no whitespace. -/
def skipWs1 : List Char → Option (List Char)
  | c :: cs => if isSpaceCh c then some (cs.dropWhile isSpaceCh) else none
  | [] => none

/-- `strptime` `%p`: `AM`/`PM` case-insensitively, must end the input.
Returns `true` for PM. -/
def parseAmPm : List Char → Option Bool
  | [a, m] =>
    if (a = 'A' ∨ a = 'a') ∧ (m = 'M' ∨ m = 'm') then some false
    else if (a = 'P' ∨ a = 'p') ∧ (m = 'M' ∨ m = 'm') then some true
    else none
  | _ => none

/-- `strptime` `%I` (hour 1–12, one or two digits; two-digit forms are
`1[0-2]` and `0[1-9]`).  The two-digit reading is tried first; since the
next format character is `:`, this agrees with the regex backtracking
CPython performs. -/
def parseHour12 : List Char → Option (Nat × List Char)
  | c1 :: c2 :: rest =>
    match digitVal c1, digitVal c2 with
    | some d1, some d2 =>
      if (d1 = 1 ∧ d2 ≤ 2) ∨ (d1 = 0 ∧ 1 ≤ d2) then some (10 * d1 + d2, rest)
      else if 1 ≤ d1 then some (d1, c2 :: rest) else none
    | some d1, none => if 1 ≤ d1 then some (d1, c2 :: rest) else none
    | none, _ => none
  | [c] => match digitVal c with
    | some d => if 1 ≤ d then some (d, []) else none
    | none => none
  | [] => none

/-- `strptime` `%M` / `%S` (minute or second 0–59, one or two digits;
two-digit form `[0-5][0-9]`).  Two digits are preferred; the following
format element can never match a digit, so this agrees with CPython. -/
def parseMin59 : List Char → Option (Nat × List Char)
  | c1 :: c2 :: rest =>
    match digitVal c1, digitVal c2 with
    | some d1, some d2 =>
      if d1 ≤ 5 then some (10 * d1 + d2, rest) else some (d1, c2 :: rest)
    | some d1, none => some (d1, c2 :: rest)
    | none, _ => none
  | [c] => match digitVal c with
    | some d => some (d, [])
    | none => none
  | [] => none

/-- `strptime` `%H` (hour 0–23; two-digit forms `2[0-3]` and `[0-1][0-9]`). -/
def parseHour24 : List Char → Option (Nat × List Char)
  | c1 :: c2 :: rest =>
    match digitVal c1, digitVal c2 with
    | some d1, some d2 =>
      if (d1 = 2 ∧ d2 ≤ 3) ∨ d1 ≤ 1 then some (10 * d1 + d2, rest)
      else some (d1, c2 :: rest)
    | some d1, none => some (d1, c2 :: rest)
    | none, _ => none
  | [c] => match digitVal c with
    | some d => some (d, [])
    | none => none
  | [] => none

/-- `datetime.strptime(s, "%I:%M %p")`, as used on clinic window bounds and
meal times; result in minutes since midnight.  `none` models the
`ValueError` the Python call raises on a mismatch. -/
def parse12 (s : String) : Option Nat :=
  match parseHour12 s.toList with
  | some (h, ':' :: rest) =>
    match parseMin59 rest with
    | some (m, rest') =>
      match skipWs1 rest' with
      | some rest'' =>
        match parseAmPm rest'' with
        | some isPM =>
          let h24 := if isPM then (if h = 12 then 12 else h + 12)
                     else (if h = 12 then 0 else h)
          some (h24 * 60 + m)
        | none => none
      | none => none
    | none => none
  | _ => none

/-- `datetime.strptime(s, "%H:%M:%S")`, as used on session start/end times;
result in seconds since midnight. -/
def parseHMS (s : String) : Option Nat :=
  match parseHour24 s.toList with
  | some (h, ':' :: rest) =>
    match parseMin59 rest with
    | some (m, ':' :: rest') =>
      match parseMin59 rest' with
      | some (sec, []) => some (h * 3600 + m * 60 + sec)
      | _ => none
    | _ => none
  | _ => none

/-- Two-digit zero-padded decimal. -/
def pad2 (n : Nat) : String :=
  if n < 10 then "0" ++ toString n else toString n

/-- `strftime("%I:%M %p")` of a time-of-day in minutes. -/
def fmt12 (m : Nat) : String :=
  let h24 := m / 60 % 24
  let h12 := if h24 % 12 = 0 then 12 else h24 % 12
  pad2 h12 ++ ":" ++ pad2 (m % 60) ++ (if h24 < 12 then " AM" else " PM")

/-- `strftime("%H:%M:%S")` of a time-of-day in seconds. -/
def fmtHMS (t : Nat) : String :=
  let t' := t % 86400
  pad2 (t' / 3600) ++ ":" ++ pad2 (t' / 60 % 60) ++ ":" ++ pad2 (t' % 60)

/-- `strftime("%H:%M:%S")` of a signed offset in minutes from midnight
(the `datetime` subtraction in `get_medication_schedule` can cross
midnight; `strftime` then shows the time-of-day of the previous day). -/
def fmtHMSm (m : Int) : String :=
  fmtHMS ((m % 1440).toNat * 60)

/-- The slot-generation loop of `docreq_appointment_bl`
(`while start_time < end_time: append; start_time += duration`), with the
start times kept in minutes.  `fuel` bounds the recursion; with a positive
duration `e - cur` iterations always suffice.  (With duration 0 the Python
loop would not terminate; the model then stops at the fuel bound, a case
no claim touches.) -/
def genSlotsAux (d : Nat) : Nat → Nat → Nat → List Nat
  | 0, _, _ => []
  | fuel + 1, cur, e => if cur < e then cur :: genSlotsAux d fuel (cur + d) e else []

/-- Slot start times generated for one parsed window `(s, e)` with slot
duration `d` minutes. -/
def genSlots (s e d : Nat) : List Nat :=
  genSlotsAux d (e - s) s e

example : genSlots 540 600 45 = [540, 585] := by decide
example : parse12 "09:00 AM" = some 540 := by decide
example : parse12 "01:05 PM" = some 785 := by decide
example : parse12 "12:30 AM" = some 30 := by decide
example : parse12 "9:00AM" = none := by decide
example : parseHMS "08:00:00" = some 28800 := by decide
example : pySplit "-" "1-0-1-0" = ["1", "0", "1", "0"] := by decide
example : pySplit " - " "09:00 AM - 01:00 PM" = ["09:00 AM", "01:00 PM"] := by decide
example : pyInStr "Mon" "Mon,Tue,Wed" = true := by decide
example : pyInt " 12 " = some 12 := by decide
example : fmt12 540 = "09:00 AM" := by decide
example : fmt12 785 = "01:05 PM" := by decide
example : fmtHMS 28800 = "08:00:00" := by decide
example : fmtHMSm (480 - 15) = "07:45:00" := by decide

/-- Python `range(0, stop, step)` for a possibly negative `stop` and a
positive `step`: the multiples of `step` below `stop`. -/
def pyRangeMul (stop : Int) (step : Nat) : List Nat :=
  if stop ≤ 0 then []
  else (List.range ((stop.toNat + step - 1) / step)).map (· * step)

/-- Core of `frequency_time_helper` (`app/service/subscriber_sp.py`): the
raw `frequency_time` list built for a session window, in seconds since
midnight, before `strftime` formatting.  `session_frequency` is the
frequency name fetched from the `VitalFrequency` record (the database
fetch itself is an external collaborator).  `int(total_seconds / 3600)`
truncates toward zero, which `Int.tdiv` mirrors. -/
def frequencyTimes (s e : Nat) (session_frequency : String) : List Nat :=
  let totalTimeHours : Int := Int.tdiv ((e : Int) - (s : Int)) 3600
  if session_frequency = "Twice in a session" then
    [s, e]
  else if session_frequency = "Every two hours" then
    (pyRangeMul (totalTimeHours + 1) 2).filterMap
      (fun i => let c := s + 3600 * i; if c ≤ e then some c else none)
  else if session_frequency = "Every one hour" then
    (pyRangeMul (totalTimeHours + 1) 1).filterMap
      (fun i => let c := s + 3600 * i; if c ≤ e then some c else none)
  else if session_frequency = "Twice a day" then
    if e = s then [s, s + 43200, e] else [s, e]
  else []

/-- `frequency_time_helper`: parse the `"%H:%M:%S"` bounds, build the
frequency list, format it back.  A parse failure propagates to the
`except` block, which the source converts to an HTTP 500 error; an
unrecognized frequency name falls through every branch and yields
`Except.ok []`. -/
def frequency_time_helper (start_str end_str session_frequency : String) :
    Except String (List String) :=
  match parseHMS start_str, parseHMS end_str with
  | some s, some e => .ok ((frequencyTimes s e session_frequency).map fmtHMS)
  | _, _ => .error "Error occurred while getting frequency time"

example : frequency_time_helper "08:00:00" "14:00:00" "Every two hours" =
    .ok ["08:00:00", "10:00:00", "12:00:00", "14:00:00"] := rfl
example : frequency_time_helper "09:00:00" "17:00:00" "Twice in a session" =
    .ok ["09:00:00", "17:00:00"] := rfl
example : frequencyTimes 28800 28800 "Twice a day" = [28800, 72000, 28800] := by decide
example : frequencyTimes 28800 36000 "Weekly" = [] := by decide
example : frequencyTimes 36000 28800 "Every one hour" = [] := by decide
example : frequencyTimes 36000 34000 "Every one hour" = [] := by decide

/-- One emitted medication event, mirroring the dict built by
`get_medication_schedule`. -/
structure MedEvent where
  medicine_name : String
  dosage_timing : String
  medication_timing : String
  quantity : Int
  intake_timing : String
deriving Repr, DecidableEq

/-- Lookup in a Python dict built by inserting the pairs of `l` in order:
the last binding of a key wins. -/
def lookupLast (l : List (String × Nat)) (key : String) : Option Nat :=
  l.foldl (fun acc p => if p.1 = key then some p.2 else acc) none

/-- The first loop of `get_medication_schedule`: parse every meal time with
`"%I:%M %p"` into `parsed_food_timing`; one failure aborts the whole call
(the `ValueError` reaches the `except` block). -/
def parseFoods : List (String × String) → Option (List (String × Nat))
  | [] => some []
  | (k, ts) :: rest =>
    match parse12 ts, parseFoods rest with
    | some t, some r => some ((k, t) :: r)
    | _, _ => none

/-- The fixed meal-slot order of `get_medication_schedule`. -/
def times_of_day : List String := ["morning", "afternoon", "evening", "dinner"]

/-- Intake time: meal time (minutes) shifted 15 minutes earlier for
`"Before Food"`, 15 minutes later otherwise, then `strftime("%H:%M:%S")`. -/
def intakeTime (dosage_timing : String) (foodTime : Nat) : String :=
  if dosage_timing = "Before Food" then fmtHMSm ((foodTime : Int) - 15)
  else fmtHMSm ((foodTime : Int) + 15)

/-- The `enumerate(med_quantities)` loop of `get_medication_schedule`.
Each step can raise: `int()` on a non-digit part, `times_of_day[index]`
past position 3, `parsed_food_timing[time_key]` for a missing meal; all
reach the `except` block and become errors.  A zero quantity is skipped. -/
def schedLoop (medicine_name dosage_timing : String)
    (pf : List (String × Nat)) : Nat → List String → Except String (List MedEvent)
  | _, [] => .ok []
  | idx, q :: rest =>
    match pyInt q with
    | none => .error "Error occurred while getting medication schedule"
    | some n =>
      if n = 0 then schedLoop medicine_name dosage_timing pf (idx + 1) rest
      else
        match times_of_day.get? idx with
        | none => .error "Error occurred while getting medication schedule"
        | some key =>
          match lookupLast pf key with
          | none => .error "Error occurred while getting medication schedule"
          | some foodTime =>
            match schedLoop medicine_name dosage_timing pf (idx + 1) rest with
            | .ok evs => .ok ({ medicine_name := medicine_name,
                                dosage_timing := dosage_timing,
                                medication_timing := key,
                                quantity := n,
                                intake_timing := intakeTime dosage_timing foodTime } :: evs)
            | .error msg => .error msg

/-- `get_medication_schedule` (`app/service/subscriber_sp.py`): split the
dosage code on `-`, parse the meal schedule, and walk the dosage digits in
the fixed meal order.  `food_timing` is the sequence of
`(meal name, meal time)` pairs that the source loop `for key, time_str in
food_timing` loop consumes. -/
def get_medication_schedule (medicine_name dosage_timing medication_timing : String)
    (food_timing : List (String × String)) : Except String (List MedEvent) :=
  match parseFoods food_timing with
  | none => .error "Error occurred while getting medication schedule"
  | some pf => schedLoop medicine_name dosage_timing pf 0 (pySplit "-" medication_timing)

example : get_medication_schedule "Dolo" "Before Food" "1-0-1-0"
    [("morning", "08:00 AM"), ("evening", "08:00 PM")] =
    .ok [{ medicine_name := "Dolo", dosage_timing := "Before Food",
           medication_timing := "morning", quantity := 1, intake_timing := "07:45:00" },
         { medicine_name := "Dolo", dosage_timing := "Before Food",
           medication_timing := "evening", quantity := 1, intake_timing := "19:45:00" }] := rfl
example : get_medication_schedule "Dolo" "Before Food" "1-0-1"
    [("morning", "08:00 AM"), ("afternoon", "01:00 PM"),
     ("evening", "08:00 PM"), ("dinner", "09:00 PM")] =
    .ok [{ medicine_name := "Dolo", dosage_timing := "Before Food",
           medication_timing := "morning", quantity := 1, intake_timing := "07:45:00" },
         { medicine_name := "Dolo", dosage_timing := "Before Food",
           medication_timing := "evening", quantity := 1, intake_timing := "19:45:00" }] := rfl
example : get_medication_schedule "Dolo" "After Food" "1-0-1-0-2"
    [("morning", "08:00 AM"), ("afternoon", "01:00 PM"),
     ("evening", "08:00 PM"), ("dinner", "09:00 PM")] =
    .error "Error occurred while getting medication schedule" := rfl

/-- The `tbl_doctor` fields `docreq_appointment_bl` uses: `avblty` is the
appointment duration in minutes. -/
structure Doctor where
  avblty : Nat
deriving Repr

/-- The `tbl_doctoravblty` fields `docreq_appointment_bl` uses.  `days` is
a plain string column (for example `"Mon,Tue,Wed"`); the source tests a
weekday name against it with the Python substring operator `in`.  The three slot
columns are nullable strings. -/
structure DoctorsAvailability where
  clinic_name : String
  clinic_address : String
  days : String
  morning_slot : Option String
  afternoon_slot : Option String
  evening_slot : Option String
deriving Repr

/-- The `tbl_doctorappointments` fields the booked-slot filter uses:
`appointment_date` as a day number, `appointment_time` as minutes since
midnight. -/
structure DoctorAppointment where
  clinic_name : String
  appointment_date : Nat
  appointment_time : Nat
deriving Repr

/-- One clinic entry of the per-day response of `docreq_appointment_bl`. -/
structure ClinicEntry where
  name : String
  address : String
  timing : List String
  avblslots : List String
deriving Repr, DecidableEq

/-- Gregorian civil date (year, month, day-of-month) of a day number
counted from 1970-01-01, by the standard days-to-civil conversion. -/
def civilFromDays (z : Nat) : Nat × Nat × Nat :=
  let z' := z + 719468
  let era := z' / 146097
  let doe := z' % 146097
  let yoe := (doe - doe / 1460 + doe / 36524 - doe / 146096) / 365
  let y := yoe + era * 400
  let doy := doe - (365 * yoe + yoe / 4 - yoe / 100)
  let mp := (5 * doy + 2) / 153
  let d := doy - (153 * mp + 2) / 5 + 1
  let m := if mp < 10 then mp + 3 else mp - 9
  (if m ≤ 2 then y + 1 else y, m, d)

/-- `strftime("%d-%m-%Y")` of a day number. -/
def dateStr (z : Nat) : String :=
  let c := civilFromDays z
  pad2 c.2.2 ++ "-" ++ pad2 c.2.1 ++ "-" ++ toString c.1

/-- `strftime("%a")` of a day number; day 0 (1970-01-01) was a Thursday. -/
def weekdayName (z : Nat) : String :=
  ["Thu", "Fri", "Sat", "Sun", "Mon", "Tue", "Wed"].getD (z % 7) ""

/-- The `next_7_days` list: today and the following six days, formatted. -/
def next7days (today : Nat) : List String :=
  (List.range 7).map (fun i => dateStr (today + i))

/-- The slot-string validation and parse of `docreq_appointment_bl`: the
guard `slot and " - " in slot` plus
`start_time, end_time = slot.split(" - ")` and the two
`strptime(_, "%I:%M %p")` calls.  `none` covers every skipped case: the
falsy/no-separator guard, a split into more than two parts (`ValueError`
on unpacking), and a `ValueError` from either `strptime` — all of which
leave the window without slots or a timing entry. -/
def parseWindow (slot : String) : Option (Nat × Nat) :=
  match pySplit " - " slot with
  | [a, b] =>
    match parse12 (List.asString (pyStripL a.toList)),
          parse12 (List.asString (pyStripL b.toList)) with
    | some s, some e => some (s, e)
    | _, _ => none
  | _ => none

/-- The `for slot in all_slots` loop of `docreq_appointment_bl`,
accumulating the `timing` list and the formatted `total_slots` list. -/
def processSlots (all_slots : List String) (d : Nat) : List String × List String :=
  all_slots.foldl
    (fun acc slot =>
      match parseWindow slot with
      | some (s, e) => (acc.1 ++ [slot], acc.2 ++ (genSlots s e d).map fmt12)
      | none => acc)
    ([], [])

/-- Python truthiness on a nullable slot column:
`[avbl.morning_slot] if avbl.morning_slot else []`. -/
def optSlot : Option String → List String
  | none => []
  | some s => if s = "" then [] else [s]

/-- The `booked_slots` comprehension: bookings at the same clinic on the
same formatted date, with the appointment time reformatted to
`"%I:%M %p"`. -/
def bookedSlotsFor (clinics : List DoctorAppointment) (name day : String) : List String :=
  clinics.filterMap
    (fun c =>
      if c.clinic_name = name ∧ dateStr c.appointment_date = day
      then some (fmt12 c.appointment_time) else none)

/-- The booked-slot removal of `docreq_appointment_bl`: filter out booked
times, then the explicit no-bookings override. -/
def availableSlots (total booked : List String) : List String :=
  let available := total.filter (fun s => !(booked.contains s))
  if booked.isEmpty then total else available

/-- Append a clinic entry to the list held at key `day` of the date-keyed
response (the `date_based_response[day]["clinic"].append(...)` step).
The response dict is modelled as an association list whose keys are the
seven formatted dates; the first matching key is updated, which agrees
with the Python dict because the seven date strings are distinct. -/
def appendClinic (resp : List (String × List ClinicEntry)) (day : String)
    (entry : ClinicEntry) : List (String × List ClinicEntry) :=
  match resp with
  | [] => []
  | (k, v) :: rest =>
    if k = day then (k, v ++ [entry]) :: rest
    else (k, v) :: appendClinic rest day entry

/-- First-match lookup in the date-keyed response. -/
def lookupDay (resp : List (String × List ClinicEntry)) (day : String) :
    Option (List ClinicEntry) :=
  (resp.find? (fun p => p.1 == day)).map Prod.snd

/-- The per-availability / per-day body of `docreq_appointment_bl`:
weekday membership test, window parsing, slot generation, booked-slot
removal, and the append into the response. -/
def docreqDayStep (clinics : List DoctorAppointment) (timePerAppointment : Nat)
    (avbl : DoctorsAvailability) (resp : List (String × List ClinicEntry))
    (day : Nat) : List (String × List ClinicEntry) :=
  if pyInStr (weekdayName day) avbl.days then
    let all_slots := optSlot avbl.morning_slot ++ optSlot avbl.afternoon_slot ++
      optSlot avbl.evening_slot
    let tt := processSlots all_slots timePerAppointment
    let booked := bookedSlotsFor clinics avbl.clinic_name (dateStr day)
    appendClinic resp (dateStr day)
      { name := avbl.clinic_name, address := avbl.clinic_address,
        timing := tt.1, avblslots := availableSlots tt.2 booked }
  else resp

/-- `docreq_appointment_bl` (`app/service/subscriber_appointments.py`).
`doctor_data` and the availability and booking lists are the records the
database collaborators return; `today` is `datetime.today()` as a day
number.  A missing doctor and an empty availability list raise the
404 errors of the source; otherwise the date-keyed response is built over the
7-day horizon.  The weekday of each day is obtained from the day number,
which agrees with the re-parse of the formatted date string done by the source. -/
def docreq_appointment_bl (doctor_data : Option Doctor)
    (doctor_availability_data : List DoctorsAvailability)
    (clinic_data : List DoctorAppointment) (today : Nat) :
    Except String (List (String × List ClinicEntry)) :=
  match doctor_data with
  | none => .error "No doctor found with this ID"
  | some doc =>
    if doctor_availability_data.isEmpty then
      .error "No availability found for this doctor"
    else
      .ok (doctor_availability_data.foldl
        (fun resp avbl =>
          (List.range 7).foldl
            (fun resp i => docreqDayStep clinic_data doc.avblty avbl resp (today + i))
            resp)
        ((next7days today).map (fun d => (d, []))))

example : dateStr 0 = "01-01-1970" := by decide
example : weekdayName 0 = "Thu" := by decide
example : dateStr 20454 = "01-01-2026" := by decide
example : parseWindow "09:00 AM - 10:00 AM" = some (540, 600) := by decide
example : parseWindow "09:00 AM-10:00 AM" = none := by decide
example : parseWindow "garbled" = none := by decide
example : processSlots ["bad", "09:00 AM - 10:00 AM"] 30 =
    (["09:00 AM - 10:00 AM"], ["09:00 AM", "09:30 AM"]) := by decide
example : availableSlots ["09:00 AM", "09:30 AM"] ["09:30 AM"] = ["09:00 AM"] := by decide
example : docreq_appointment_bl (some { avblty := 30 }) [] [] 20454 =
    .error "No availability found for this doctor" := rfl

/-- Every slot start emitted by the generation loop lies in `[cur, e)`,
whatever the fuel. -/
theorem genSlotsAux_mem (d : Nat) :
    ∀ (fuel cur e t : Nat), t ∈ genSlotsAux d fuel cur e → cur ≤ t ∧ t < e := by
  intro fuel
  induction fuel with
  | zero => intro cur e t h; simp [genSlotsAux] at h
  | succ n ih =>
    intro cur e t h
    by_cases hc : cur < e
    · rw [genSlotsAux, if_pos hc] at h
      rcases List.mem_cons.mp h with rfl | h'
      · exact ⟨Nat.le_refl _, hc⟩
      · obtain ⟨h1, h2⟩ := ih (cur + d) e t h'
        exact ⟨Nat.le_trans (Nat.le_add_right _ _) h1, h2⟩
    · rw [genSlotsAux, if_neg hc] at h
      simp at h

/-- C1, amended.  The claim as stated is false: the loop emits a slot
start whenever it is strictly before the window end, so the final partial
slot whose end would exceed the window end IS emitted.  What holds for
every successfully parsed window `(s, e)`, every positive duration `d`
and every emitted slot start `t` is `s ≤ t` and `t < e`. -/
theorem C1_slot_containment_amended (w : String) (s e d t : Nat)
    (_hw : parseWindow w = some (s, e)) (_hd : 0 < d)
    (ht : t ∈ genSlots s e d) : s ≤ t ∧ t < e :=
  genSlotsAux_mem d (e - s) s e t ht

/-- Witness for C1: the first slot of the window 09:00–10:00 AM with a
30-minute duration. -/
theorem C1_slot_containment_witness :
    parseWindow "09:00 AM - 10:00 AM" = some (540, 600) ∧ 0 < 30 ∧
      540 ∈ genSlots 540 600 30 ∧ (540 ≤ 540 ∧ 540 < 600) :=
  ⟨by decide, by decide, by decide,
    C1_slot_containment_amended "09:00 AM - 10:00 AM" 540 600 30 540
      (by decide) (by decide) (by decide)⟩

/-- C1 counterexample: for the parsed window 09:00–10:00 AM and duration
45, the loop emits slot start 09:45 whose end 10:30 exceeds the window
end, refuting `t + d ≤ end`. -/
theorem C1_slot_containment_counterexample :
    parseWindow "09:00 AM - 10:00 AM" = some (540, 600) ∧
      585 ∈ genSlots 540 600 45 ∧ ¬(585 + 45 ≤ 600) := by decide

/-- C3: the claim states an unrecognized frequency is a reported fatal
configuration error; the code instead falls through every branch of the
string dispatch and returns an empty list wrapped in a successful result.
Evaluation at the failing input: frequency `"Weekly"`, window
08:00:00–10:00:00. -/
theorem C3_unknown_frequency_silently_empty :
    frequency_time_helper "08:00:00" "10:00:00" "Weekly" = .ok [] := rfl

/-- C7: the claim states a dosage code whose digit count differs from the
four meal slots is a reported error; for the three-digit code `"1-0-1"`
the code instead silently produces a partial schedule (morning and
evening doses only), with no error. -/
theorem C7_short_dosage_code_silently_partial :
    get_medication_schedule "Dolo" "Before Food" "1-0-1"
      [("morning", "08:00 AM"), ("afternoon", "01:00 PM"),
       ("evening", "08:00 PM"), ("dinner", "09:00 PM")] =
    .ok [{ medicine_name := "Dolo", dosage_timing := "Before Food",
           medication_timing := "morning", quantity := 1, intake_timing := "07:45:00" },
         { medicine_name := "Dolo", dosage_timing := "Before Food",
           medication_timing := "evening", quantity := 1, intake_timing := "19:45:00" }] := rfl

/-- Accumulator characterization of the `for slot in all_slots` loop. -/
theorem processSlots_go (d : Nat) :
    ∀ (l : List String) (acc : List String × List String),
      l.foldl (fun acc slot =>
        match parseWindow slot with
        | some (s, e) => (acc.1 ++ [slot], acc.2 ++ (genSlots s e d).map fmt12)
        | none => acc) acc =
      (acc.1 ++ l.filter (fun s => (parseWindow s).isSome),
       acc.2 ++ l.flatMap (fun s =>
         match parseWindow s with
         | some (a, b) => (genSlots a b d).map fmt12
         | none => [])) := by
  intro l
  induction l with
  | nil => intro acc; simp
  | cons x xs ih =>
    intro acc
    cases hx : parseWindow x with
    | none => simp [List.foldl_cons, List.filter_cons, List.flatMap_cons, hx, ih]
    | some p =>
      obtain ⟨a, b⟩ := p
      simp [List.foldl_cons, List.filter_cons, List.flatMap_cons, hx, ih,
        List.append_assoc]

/-- C9: for every list of window strings the per-clinic loop is total (no
exception reaches the caller): the `timing` list is exactly the parsable
entries in order, and the generated slots are exactly the concatenation
of the slots of the parsable entries — a malformed entry contributes
neither slots nor a timing entry.  The second conjunct instantiates the
claim scenario of one unparsable entry next to one valid entry. -/
theorem C9_malformed_window_tolerance (all_slots : List String) (d : Nat) :
    (processSlots all_slots d =
      (all_slots.filter (fun s => (parseWindow s).isSome),
       all_slots.flatMap (fun s =>
         match parseWindow s with
         | some (a, b) => (genSlots a b d).map fmt12
         | none => []))) ∧
    processSlots ["garbled", "09:00 AM - 10:00 AM"] 30 =
      (["09:00 AM - 10:00 AM"], ["09:00 AM", "09:30 AM"]) := by
  constructor
  · simpa [processSlots] using processSlots_go d all_slots ([], [])
  · decide

/-- The hourly branch body over an inverted window is empty: with
`e < s` the truncated hour count is at most zero, so the range is `[]`
or `[0]`, and the bound check rejects the lone candidate `s`. -/
theorem freqBranchEmpty (s e step : Nat) (h : e < s) :
    (pyRangeMul (Int.tdiv ((e : Int) - (s : Int)) 3600 + 1) step).filterMap
      (fun i => let c := s + 3600 * i; if c ≤ e then some c else none) = [] := by
  have hth : Int.tdiv ((e : Int) - (s : Int)) 3600 ≤ 0 := by
    have hrw : (e : Int) - (s : Int) = -((s : Int) - (e : Int)) := by ring
    rw [hrw, Int.neg_tdiv]
    have : 0 ≤ Int.tdiv ((s : Int) - (e : Int)) 3600 :=
      Int.tdiv_nonneg (by omega) (by norm_num)
    omega
  rcases le_or_lt (Int.tdiv ((e : Int) - (s : Int)) 3600 + 1) 0 with hle | hpos
  · rw [pyRangeMul, if_pos hle]
    simp
  · have h1 : Int.tdiv ((e : Int) - (s : Int)) 3600 + 1 = 1 := by omega
    rw [h1] at hpos ⊢
    rw [pyRangeMul, if_neg (by omega)]
    have h2 : ((1 : Int).toNat + step - 1) / step ≤ 1 := by
      have : (1 : Int).toNat = 1 := rfl
      rw [this]
      rcases Nat.eq_zero_or_pos step with hz | hp
      · simp [hz]
      · exact Nat.div_le_of_le_mul (by omega)
    interval_cases h3 : ((1 : Int).toNat + step - 1) / step
    · simp
    · simp
      omega

/-- C10: for a session window whose end is strictly earlier than its
start, both hourly branches of `frequency_time_helper` return the empty
list: the truncated hour count is non-positive and the per-step bound
check rejects any remaining candidate. -/
theorem C10_inverted_window_empty (s e : Nat) (h : e < s) :
    frequencyTimes s e "Every one hour" = [] ∧
    frequencyTimes s e "Every two hours" = [] := by
  constructor <;>
    · rw [frequencyTimes]
      norm_num
      exact freqBranchEmpty s e _ h

/-- Witness for C10: the window 10:00:00 → 00:00:00. -/
theorem C10_inverted_window_empty_witness :
    (0 : Nat) < 36000 ∧
      (frequencyTimes 36000 0 "Every one hour" = [] ∧
       frequencyTimes 36000 0 "Every two hours" = []) :=
  ⟨by decide, C10_inverted_window_empty 36000 0 (by decide)⟩

/-- Any timestamp kept by the bound-checked append of the hourly branches
lies in `[s, e]`. -/
theorem freqBranchMem (s e step t : Nat) (stop : Int)
    (ht : t ∈ (pyRangeMul stop step).filterMap
      (fun i => let c := s + 3600 * i; if c ≤ e then some c else none)) :
    s ≤ t ∧ t ≤ e := by
  rcases List.mem_filterMap.mp ht with ⟨i, _, hi⟩
  dsimp only at hi
  split_ifs at hi with hc
  cases Option.some.inj hi
  exact ⟨Nat.le_add_right _ _, hc⟩

/-- C2, amended.  The claim as stated is false: in the `"Twice a day"`
branch with `start_time == end_time` the code emits `start_time + 12h`,
which lies outside the degenerate interval `[start, start]`.  What holds
for every window with `start ≤ end` and every recognized frequency is:
outside that special branch, every emitted timestamp lies in
`[start, end]`; in that special branch the emitted timestamps are exactly
`[start, start + 12h, end]`. -/
theorem C2_recurrence_window_amended (s e : Nat) (f : String) (hse : s ≤ e)
    (hf : f = "Twice in a session" ∨ f = "Every two hours" ∨
          f = "Every one hour" ∨ f = "Twice a day") :
    (¬(f = "Twice a day" ∧ s = e) →
      ∀ t ∈ frequencyTimes s e f, s ≤ t ∧ t ≤ e) ∧
    (f = "Twice a day" → s = e → frequencyTimes s e f = [s, s + 43200, e]) := by
  rcases hf with rfl | rfl | rfl | rfl
  · refine ⟨fun _ t ht => ?_, fun hcontra => by simp at hcontra⟩
    rw [frequencyTimes, if_pos rfl] at ht
    rcases List.mem_pair.mp ht with rfl | rfl
    · exact ⟨Nat.le_refl _, hse⟩
    · exact ⟨hse, Nat.le_refl _⟩
  · refine ⟨fun _ t ht => ?_, fun hcontra => by simp at hcontra⟩
    rw [frequencyTimes, if_neg (by decide), if_pos rfl] at ht
    exact freqBranchMem s e 2 t _ ht
  · refine ⟨fun _ t ht => ?_, fun hcontra => by simp at hcontra⟩
    rw [frequencyTimes, if_neg (by decide), if_neg (by decide), if_pos rfl] at ht
    exact freqBranchMem s e 1 t _ ht
  · constructor
    · intro hne t ht
      have hsne : ¬s = e := by simpa using hne
      rw [frequencyTimes, if_neg (by decide), if_neg (by decide),
        if_neg (by decide), if_pos rfl, if_neg (fun hes => hsne hes.symm)] at ht
      rcases List.mem_pair.mp ht with rfl | rfl
      · exact ⟨Nat.le_refl _, hse⟩
      · exact ⟨hse, Nat.le_refl _⟩
    · intro _ hseq
      rw [frequencyTimes, if_neg (by decide), if_neg (by decide),
        if_neg (by decide), if_pos rfl, if_pos hseq.symm]

/-- Witness for C2: the one-hour policy on the window
08:00:00–10:00:00. -/
theorem C2_recurrence_window_witness :
    (28800 : Nat) ≤ 36000 ∧
      ((¬("Every one hour" = "Twice a day" ∧ (28800 : Nat) = 36000) →
        ∀ t ∈ frequencyTimes 28800 36000 "Every one hour",
          28800 ≤ t ∧ t ≤ 36000) ∧
       ("Every one hour" = "Twice a day" → (28800 : Nat) = 36000 →
        frequencyTimes 28800 36000 "Every one hour" = [28800, 28800 + 43200, 36000])) :=
  ⟨by decide,
    C2_recurrence_window_amended 28800 36000 "Every one hour" (by decide)
      (Or.inr (Or.inr (Or.inl rfl)))⟩

/-- C2 counterexample: with start = end = 08:00:00 the `"Twice a day"`
branch emits 20:00:00, which is outside `[start, end]`. -/
theorem C2_recurrence_window_counterexample :
    72000 ∈ frequencyTimes 28800 28800 "Twice a day" ∧
      ¬((28800 : Nat) ≤ 72000 ∧ (72000 : Nat) ≤ 28800) := by decide

/-- Modelled from the spec sentences for the hourly policies: emit
`start, start + step, start + 2·step, …` while `≤ end` (inclusive
boundary).  For `s ≤ e` these are exactly the values `s + step * k` with
`step * k ≤ e - s`, that is `k ≤ (e - s) / step`. -/
def hourlySpecTimes (s e step : Nat) : List Nat :=
  (List.range ((e - s) / step + 1)).map (fun k => s + step * k)

/-- The hourly branch body equals the spec-side enumeration, for any
positive range step. -/
theorem hourlyBranchEq (s e step : Nat) (hstep : 0 < step) (hse : s ≤ e) :
    (pyRangeMul ((((e - s) / 3600 : Nat) : Int) + 1) step).filterMap
      (fun i => let c := s + 3600 * i; if c ≤ e then some c else none) =
    hourlySpecTimes s e (3600 * step) := by
  have hstop : ¬((((e - s) / 3600 : Nat) : Int) + 1 ≤ 0) := by omega
  rw [pyRangeMul, if_neg hstop]
  have hcount : (((((e - s) / 3600 : Nat) : Int) + 1).toNat + step - 1) / step =
      (e - s) / 3600 / step + 1 := by
    have h1 : ((((e - s) / 3600 : Nat) : Int) + 1).toNat = (e - s) / 3600 + 1 := by omega
    rw [h1]
    have h2 : (e - s) / 3600 + 1 + step - 1 = (e - s) / 3600 + step := by omega
    rw [h2, Nat.add_div_right _ hstep]
  rw [hcount, List.filterMap_map]
  have hcond : ∀ k ∈ List.range ((e - s) / 3600 / step + 1),
      ((fun i => if s + 3600 * i ≤ e then some (s + 3600 * i) else none) ∘ (· * step)) k =
      (some ∘ fun k => s + 3600 * step * k) k := by
    intro k hk
    have hk' : k ≤ (e - s) / 3600 / step := by
      have := List.mem_range.mp hk
      omega
    have hks : k * step ≤ (e - s) / 3600 := (Nat.le_div_iff_mul_le hstep).mp hk'
    have hmul : 3600 * (k * step) ≤ e - s := by
      calc 3600 * (k * step) ≤ 3600 * ((e - s) / 3600) :=
            Nat.mul_le_mul_left _ hks
        _ = (e - s) / 3600 * 3600 := Nat.mul_comm _ _
        _ ≤ e - s := Nat.div_mul_le_self _ _
    have hle : s + 3600 * (k * step) ≤ e := by omega
    simp only [Function.comp_apply, if_pos hle]
    congr 1
    ring
  rw [List.filterMap_congr hcond, List.filterMap_eq_map, hourlySpecTimes,
    Nat.div_div_eq_div_mul]

/-- C5: for `start ≤ end`, the one-hour branch emits exactly
`start + k·1h` for every `k` with `start + k·1h ≤ end` (inclusive
boundary) and the two-hour branch the same with a 2-hour step; and the
concrete two-hour example 08:00:00 → 14:00:00 yields
`["08:00:00", "10:00:00", "12:00:00", "14:00:00"]`. -/
theorem C5_hourly_policies (s e : Nat) (hse : s ≤ e) :
    frequencyTimes s e "Every one hour" = hourlySpecTimes s e 3600 ∧
    frequencyTimes s e "Every two hours" = hourlySpecTimes s e 7200 ∧
    frequency_time_helper "08:00:00" "14:00:00" "Every two hours" =
      .ok ["08:00:00", "10:00:00", "12:00:00", "14:00:00"] := by
  have hcast : (e : Int) - (s : Int) = ((e - s : Nat) : Int) := (Int.ofNat_sub hse).symm
  have htdiv : Int.tdiv (((e - s : Nat) : Int)) (3600 : Int) = (((e - s) / 3600 : Nat) : Int) := rfl
  refine ⟨?_, ?_, rfl⟩
  · rw [frequencyTimes, if_neg (by decide), if_neg (by decide), if_pos rfl,
      hcast, htdiv]
    have := hourlyBranchEq s e 1 (by decide) hse
    simpa using this
  · rw [frequencyTimes, if_neg (by decide), if_pos rfl, hcast, htdiv]
    have := hourlyBranchEq s e 2 (by decide) hse
    simpa using this

/-- Witness for C5: the window 08:00:00 → 14:00:00. -/
theorem C5_hourly_policies_witness :
    (28800 : Nat) ≤ 50400 ∧
      (frequencyTimes 28800 50400 "Every one hour" = hourlySpecTimes 28800 50400 3600 ∧
       frequencyTimes 28800 50400 "Every two hours" = hourlySpecTimes 28800 50400 7200 ∧
       frequency_time_helper "08:00:00" "14:00:00" "Every two hours" =
         .ok ["08:00:00", "10:00:00", "12:00:00", "14:00:00"]) :=
  ⟨by decide, C5_hourly_policies 28800 50400 (by decide)⟩

/-- Excluding booked strings by `contains` is the same Boolean test as
requiring inequality with every booked string. -/
theorem notContainsEqAllNe (booked : List String) (t : String) :
    (!(booked.contains t)) = booked.all (fun b => b ≠ t) := by
  induction booked with
  | nil => rfl
  | cons x xs ih =>
    simp only [List.contains_cons, List.all_cons, Bool.not_or, ih]
    by_cases hx : x = t
    · subst hx
      simp
    · simp [hx, Ne.symm hx]

/-- C4: the available-slot list is exactly the candidate list filtered to
the candidates whose time equals no booked time for the clinic and date
(in candidate order), membership is characterized against the raw booking
records, and an empty booked list passes every candidate through. -/
theorem C4_booking_conflict_filter (total : List String)
    (clinics : List DoctorAppointment) (name day : String) :
    (availableSlots total (bookedSlotsFor clinics name day) =
      total.filter (fun t => (bookedSlotsFor clinics name day).all (fun b => b ≠ t))) ∧
    (∀ t, t ∈ availableSlots total (bookedSlotsFor clinics name day) ↔
      t ∈ total ∧ ∀ c ∈ clinics, c.clinic_name = name →
        dateStr c.appointment_date = day → fmt12 c.appointment_time ≠ t) ∧
    (bookedSlotsFor clinics name day = [] →
      availableSlots total (bookedSlotsFor clinics name day) = total) := by
  have hfilter : availableSlots total (bookedSlotsFor clinics name day) =
      total.filter (fun t => (bookedSlotsFor clinics name day).all (fun b => b ≠ t)) := by
    rw [availableSlots]
    by_cases hb : (bookedSlotsFor clinics name day).isEmpty
    · rw [if_pos hb]
      rw [List.isEmpty_iff] at hb
      rw [hb]
      simp
    · rw [if_neg hb]
      exact List.filter_congr (fun x _ => notContainsEqAllNe _ x)
  refine ⟨hfilter, fun t => ?_, fun hb => ?_⟩
  · rw [hfilter, List.mem_filter]
    constructor
    · rintro ⟨htot, hall⟩
      refine ⟨htot, fun c hc hname hdate => ?_⟩
      have := (List.all_eq_true.mp hall) (fmt12 c.appointment_time) ?_
      · simpa using this
      · exact List.mem_filterMap.mpr ⟨c, hc, by rw [if_pos ⟨hname, hdate⟩]⟩
    · rintro ⟨htot, hforall⟩
      refine ⟨htot, List.all_eq_true.mpr fun b hb => ?_⟩
      rcases List.mem_filterMap.mp hb with ⟨c, hc, hcb⟩
      split_ifs at hcb with hcond
      cases Option.some.inj hcb
      simpa using hforall c hc hcond.1 hcond.2
  · rw [hfilter, hb]
    simp

/-- One step of the dosage loop, under the hypotheses that the quantity
part parses and the meal time of the slot is known whenever the quantity
is nonzero. -/
theorem schedLoopStep (name dt : String) (pf : List (String × Nat)) (idx : Nat)
    (q : String) (rest : List String) (d : Int) (m : Nat) (key : String)
    (hq : pyInt q = some d)
    (hkey : times_of_day.get? idx = some key)
    (hm : d ≠ 0 → lookupLast pf key = some m) :
    schedLoop name dt pf idx (q :: rest) =
      (schedLoop name dt pf (idx + 1) rest).map (fun evs =>
        (if d = 0 then [] else
          [{ medicine_name := name, dosage_timing := dt, medication_timing := key,
             quantity := d, intake_timing := intakeTime dt m }]) ++ evs) := by
  by_cases hd : d = 0
  · simp only [schedLoop, hq, if_pos hd]
    cases hrec : schedLoop name dt pf (idx + 1) rest <;> simp [Except.map]
  · simp only [schedLoop, hq, if_neg hd, hkey, hm hd]
    cases hrec : schedLoop name dt pf (idx + 1) rest <;> simp [Except.map, hd]

/-- C6: for a dosage code splitting into four parseable quantities, a
dosage timing of `"Before Food"` or `"After Food"`, a fully parseable
meal schedule, and meal times known for every slot with a nonzero
quantity, `get_medication_schedule` succeeds and emits — in the fixed
order morning, afternoon, evening, dinner — one event per nonzero
quantity, carrying that quantity and the meal time shifted 15 minutes
earlier for `"Before Food"` and 15 minutes later for `"After Food"`; a
zero quantity contributes no event. -/
theorem C6_dose_timing (name dt mt : String) (ft : List (String × String))
    (pf : List (String × Nat)) (q0 q1 q2 q3 : String) (d0 d1 d2 d3 : Int)
    (m0 m1 m2 m3 : Nat)
    (_hdt : dt = "Before Food" ∨ dt = "After Food")
    (hsplit : pySplit "-" mt = [q0, q1, q2, q3])
    (h0 : pyInt q0 = some d0) (h1 : pyInt q1 = some d1)
    (h2 : pyInt q2 = some d2) (h3 : pyInt q3 = some d3)
    (hfood : parseFoods ft = some pf)
    (hm0 : d0 ≠ 0 → lookupLast pf "morning" = some m0)
    (hm1 : d1 ≠ 0 → lookupLast pf "afternoon" = some m1)
    (hm2 : d2 ≠ 0 → lookupLast pf "evening" = some m2)
    (hm3 : d3 ≠ 0 → lookupLast pf "dinner" = some m3) :
    get_medication_schedule name dt mt ft = .ok (
      (if d0 = 0 then [] else
        [{ medicine_name := name, dosage_timing := dt, medication_timing := "morning",
           quantity := d0,
           intake_timing := if dt = "Before Food" then fmtHMSm ((m0 : Int) - 15)
                            else fmtHMSm ((m0 : Int) + 15) }]) ++
      (if d1 = 0 then [] else
        [{ medicine_name := name, dosage_timing := dt, medication_timing := "afternoon",
           quantity := d1,
           intake_timing := if dt = "Before Food" then fmtHMSm ((m1 : Int) - 15)
                            else fmtHMSm ((m1 : Int) + 15) }]) ++
      (if d2 = 0 then [] else
        [{ medicine_name := name, dosage_timing := dt, medication_timing := "evening",
           quantity := d2,
           intake_timing := if dt = "Before Food" then fmtHMSm ((m2 : Int) - 15)
                            else fmtHMSm ((m2 : Int) + 15) }]) ++
      (if d3 = 0 then [] else
        [{ medicine_name := name, dosage_timing := dt, medication_timing := "dinner",
           quantity := d3,
           intake_timing := if dt = "Before Food" then fmtHMSm ((m3 : Int) - 15)
                            else fmtHMSm ((m3 : Int) + 15) }])) := by
  simp only [get_medication_schedule, hfood, hsplit]
  rw [schedLoopStep name dt pf 0 q0 _ d0 m0 "morning" h0 rfl hm0,
    schedLoopStep name dt pf 1 q1 _ d1 m1 "afternoon" h1 rfl hm1,
    schedLoopStep name dt pf 2 q2 _ d2 m2 "evening" h2 rfl hm2,
    schedLoopStep name dt pf 3 q3 _ d3 m3 "dinner" h3 rfl hm3]
  simp [schedLoop, Except.map, intakeTime, List.append_assoc]

/-- Witness for C6: the spec example — dosage `"1-0-1-0"`, Before Food,
meals morning 08:00 AM and evening 08:00 PM — yields a morning dose at
07:45:00 and an evening dose at 19:45:00. -/
theorem C6_dose_timing_witness :
    get_medication_schedule "Dolo" "Before Food" "1-0-1-0"
      [("morning", "08:00 AM"), ("evening", "08:00 PM")] =
    .ok [{ medicine_name := "Dolo", dosage_timing := "Before Food",
           medication_timing := "morning", quantity := 1, intake_timing := "07:45:00" },
         { medicine_name := "Dolo", dosage_timing := "Before Food",
           medication_timing := "evening", quantity := 1, intake_timing := "19:45:00" }] := by
  have h := C6_dose_timing "Dolo" "Before Food" "1-0-1-0"
    [("morning", "08:00 AM"), ("evening", "08:00 PM")]
    [("morning", 480), ("evening", 1200)] "1" "0" "1" "0" 1 0 1 0 480 0 1200 0
    (Or.inl rfl) (by decide) (by decide) (by decide) (by decide) (by decide)
    (by decide) (by decide) (by decide) (by decide) (by decide)
  simpa using h

/-- A property preserved by every step of a fold holds of its result. -/
theorem foldlPreserve {α β : Type} (P : α → Prop) (f : α → β → α) :
    ∀ (l : List β) (a : α), (∀ b ∈ l, ∀ x, P x → P (f x b)) → P a →
      P (List.foldl f a l) := by
  intro l
  induction l with
  | nil => intro a _ ha; simpa using ha
  | cons x xs ih =>
    intro a hstep ha
    rw [List.foldl_cons]
    exact ih (f a x) (fun b hb => hstep b (List.mem_cons_of_mem _ hb))
      (hstep x (List.mem_cons_self _ _) a ha)

/-- Appending a clinic entry never changes the key list of the
response. -/
theorem appendClinic_keys (resp : List (String × List ClinicEntry))
    (day : String) (entry : ClinicEntry) :
    (appendClinic resp day entry).map Prod.fst = resp.map Prod.fst := by
  induction resp with
  | nil => rfl
  | cons p rest ih =>
    obtain ⟨k, v⟩ := p
    rw [appendClinic]
    by_cases hk : k = day
    · rw [if_pos hk]
      simp
    · rw [if_neg hk]
      simpa using ih

/-- Appending at one key leaves the lookup of a different key
unchanged. -/
theorem lookupDay_appendClinic_ne (resp : List (String × List ClinicEntry))
    (day k : String) (entry : ClinicEntry) (hne : day ≠ k) :
    lookupDay (appendClinic resp day entry) k = lookupDay resp k := by
  induction resp with
  | nil => rfl
  | cons p rest ih =>
    obtain ⟨k0, v⟩ := p
    rw [appendClinic]
    by_cases hk0 : k0 = day
    · rw [if_pos hk0]
      have h1 : ¬((((k0, v ++ [entry]) : String × List ClinicEntry).1 == k) = true) := by
        simp [hk0, hne]
      have h2 : ¬((((k0, v) : String × List ClinicEntry).1 == k) = true) := by
        simp [hk0, hne]
      rw [lookupDay, lookupDay,
        @List.find?_cons_of_neg _ (fun p => p.1 == k) (k0, v ++ [entry]) rest h1,
        @List.find?_cons_of_neg _ (fun p => p.1 == k) (k0, v) rest h2]
    · rw [if_neg hk0]
      by_cases hk : k0 = k
      · have h1 : (((k0, v) : String × List ClinicEntry).1 == k) = true := by simp [hk]
        rw [lookupDay, lookupDay,
          @List.find?_cons_of_pos _ (fun p => p.1 == k) (k0, v) (appendClinic rest day entry) h1,
          @List.find?_cons_of_pos _ (fun p => p.1 == k) (k0, v) rest h1]
      · have h1 : ¬((((k0, v) : String × List ClinicEntry).1 == k) = true) := by simp [hk]
        rw [lookupDay, lookupDay,
          @List.find?_cons_of_neg _ (fun p => p.1 == k) (k0, v) (appendClinic rest day entry) h1,
          @List.find?_cons_of_neg _ (fun p => p.1 == k) (k0, v) rest h1]
        simpa [lookupDay] using ih

/-- One projector day-step never changes the key list of the response. -/
theorem docreqDayStep_keys (clinics : List DoctorAppointment) (dur : Nat)
    (avbl : DoctorsAvailability) (resp : List (String × List ClinicEntry))
    (day : Nat) :
    (docreqDayStep clinics dur avbl resp day).map Prod.fst = resp.map Prod.fst := by
  rw [docreqDayStep]
  by_cases h : pyInStr (weekdayName day) avbl.days = true
  · rw [if_pos h]
    exact appendClinic_keys _ _ _
  · rw [if_neg h]

/-- A day-step at a date different from `k` leaves the lookup at `k`
unchanged. -/
theorem lookupDay_docreqDayStep_ne (clinics : List DoctorAppointment) (dur : Nat)
    (avbl : DoctorsAvailability) (resp : List (String × List ClinicEntry))
    (day : Nat) (k : String) (hne : dateStr day ≠ k) :
    lookupDay (docreqDayStep clinics dur avbl resp day) k = lookupDay resp k := by
  rw [docreqDayStep]
  by_cases h : pyInStr (weekdayName day) avbl.days = true
  · rw [if_pos h]
    exact lookupDay_appendClinic_ne _ _ _ _ hne
  · rw [if_neg h]

/-- In the freshly initialized response every present key maps to the
empty clinic list. -/
theorem lookupDay_init (keys : List String) (k : String) (hk : k ∈ keys) :
    lookupDay (keys.map (fun d => (d, ([] : List ClinicEntry)))) k = some [] := by
  induction keys with
  | nil => cases hk
  | cons d rest ih =>
    rcases List.mem_cons.mp hk with rfl | hk'
    · rw [List.map_cons, lookupDay,
        @List.find?_cons_of_pos _ (fun p => p.1 == k) (k, []) _ (by simp)]
      rfl
    · by_cases hd : d = k
      · subst hd
        rw [List.map_cons, lookupDay,
          @List.find?_cons_of_pos _ (fun p => p.1 == d) (d, []) _ (by simp)]
        rfl
      · rw [List.map_cons, lookupDay,
          @List.find?_cons_of_neg _ (fun p => p.1 == k) (d, []) _ (by simp [hd])]
        simpa [lookupDay] using ih hk'

/-- C8, amended.  The claim as stated is false in its last conjunct: a
resource with no availability windows does not get an empty result — the
code raises the 404 error `"No availability found for this doctor"`.
What holds whenever the availability list is non-empty (the seven
formatted dates being distinct, as they are for any real calendar date)
is: the response has exactly one key per day of the 7-day horizon, in
order, and a day whose weekday matches no availability window maps to an
empty clinic list rather than an omitted key. -/
theorem C8_seven_day_horizon_amended (doc : Doctor)
    (avails : List DoctorsAvailability) (clinics : List DoctorAppointment)
    (today : Nat) (hne : avails ≠ [])
    (hnodup : (next7days today).Nodup) :
    ∃ resp, docreq_appointment_bl (some doc) avails clinics today = .ok resp ∧
      resp.map Prod.fst = next7days today ∧
      ∀ i, i < 7 →
        (∀ a ∈ avails, pyInStr (weekdayName (today + i)) a.days = false) →
        lookupDay resp (dateStr (today + i)) = some [] := by
  have hempty : ¬(avails.isEmpty = true) := by
    cases avails with
    | nil => exact absurd rfl hne
    | cons a l => simp
  refine ⟨avails.foldl
      (fun resp avbl =>
        (List.range 7).foldl
          (fun resp i => docreqDayStep clinics doc.avblty avbl resp (today + i)) resp)
      ((next7days today).map (fun d => (d, []))), ?_, ?_, ?_⟩
  · simp only [docreq_appointment_bl]
    rw [if_neg hempty]
  · refine foldlPreserve
      (fun (r : List (String × List ClinicEntry)) => r.map Prod.fst = next7days today)
      _ avails _ ?_ ?_
    · intro avbl _ resp hresp
      refine foldlPreserve
        (fun (r : List (String × List ClinicEntry)) => r.map Prod.fst = next7days today)
        _ (List.range 7) resp ?_ hresp
      intro j _ r hr
      rw [docreqDayStep_keys, hr]
    · show List.map Prod.fst (List.map (fun d => (d, ([] : List ClinicEntry)))
        (next7days today)) = next7days today
      have hcomp : (Prod.fst ∘ fun (d : String) => (d, ([] : List ClinicEntry))) = id := rfl
      rw [List.map_map, hcomp, List.map_id]
  · intro i hi hno
    have hmem : dateStr (today + i) ∈ next7days today :=
      List.mem_map.mpr ⟨i, List.mem_range.mpr hi, rfl⟩
    refine foldlPreserve
      (fun (r : List (String × List ClinicEntry)) =>
        lookupDay r (dateStr (today + i)) = some [])
      _ avails _ ?_ ?_
    · intro avbl havbl resp hresp
      refine foldlPreserve
        (fun (r : List (String × List ClinicEntry)) =>
          lookupDay r (dateStr (today + i)) = some [])
        _ (List.range 7) resp ?_ hresp
      intro j hj r hr
      by_cases hmatch : pyInStr (weekdayName (today + j)) avbl.days = true
      · have hji : j ≠ i := by
          intro hii
          subst hii
          rw [hno avbl havbl] at hmatch
          cases hmatch
        have hdne : dateStr (today + j) ≠ dateStr (today + i) := by
          intro hdd
          apply hji
          have hinj := List.inj_on_of_nodup_map (by simpa [next7days] using hnodup)
          exact hinj hj (List.mem_range.mpr hi) hdd
        rw [lookupDay_docreqDayStep_ne _ _ _ _ _ _ hdne]
        exact hr
      · rw [docreqDayStep, if_neg hmatch]
        exact hr
    · exact lookupDay_init _ _ hmem

/-- One concrete availability window used by the C8 witness. -/
def availMonTue : DoctorsAvailability :=
  { clinic_name := "Clinic", clinic_address := "Street", days := "Mon,Tue",
    morning_slot := some "09:00 AM - 10:00 AM", afternoon_slot := none,
    evening_slot := none }

/-- Witness for C8: one availability window active on Mondays and
Tuesdays, no bookings, horizon starting 01-01-2026. -/
theorem C8_seven_day_horizon_witness :
    ∃ resp, docreq_appointment_bl (some { avblty := 30 }) [availMonTue] [] 20454 =
        .ok resp ∧
      resp.map Prod.fst = next7days 20454 ∧
      ∀ i, i < 7 →
        (∀ a ∈ [availMonTue], pyInStr (weekdayName (20454 + i)) a.days = false) →
        lookupDay resp (dateStr (20454 + i)) = some [] :=
  C8_seven_day_horizon_amended { avblty := 30 } [availMonTue] [] 20454
    (List.cons_ne_nil _ _) (by decide)

/-- C8 counterexample: a doctor with an empty availability list gets the
404 error, not an empty result. -/
theorem C8_seven_day_horizon_counterexample :
    docreq_appointment_bl (some { avblty := 30 }) [] [] 20454 =
      .error "No availability found for this doctor" := rfl
